import Mathlib

/-!
Verification of the schema-reconciliation tool (compare_sch.py,
schema_parser.py, search_diff.py).

Modelling conventions:
* Python strings are modelled as `List Char` (`Str`); all fields are opaque
  strings, compared by exact equality, exactly as in the source.
* The SQLite table `schema_def` is modelled as a list of `Row`s; a SQLite
  connection (`Conn`) carries the committed contents plus an optional open
  transaction view, mirroring the implicit transaction that Python's
  sqlite3 module opens before DML statements and that `conn.rollback()` /
  `conn.commit()` close.
* A text file is a list of lines (`List Str`).
-/

/-- Python `str`, modelled as a list of characters. -/
abbrev Str := List Char

/-- Convenience coercion from a Lean string literal to `Str`. -/
def str (s : String) : Str := s.data

/-- Python ASCII whitespace, as stripped by `str.strip()`. -/
def pyWhitespace (c : Char) : Bool :=
  c = ' ' || c = '\t' || c = '\n' || c = '\r' || c = '\x0b' || c = '\x0c'

/-- Python `line.strip()`: drop whitespace from both ends. -/
def strip (l : Str) : Str :=
  ((l.dropWhile pyWhitespace).reverse.dropWhile pyWhitespace).reverse

/-- Python `s.split('^')`: split on every occurrence of the caret.
`"".split('^') = ['']`, `"a^b".split('^') = ['a','b']`, etc. -/
def splitCaret (l : Str) : List Str :=
  l.foldr
    (fun ch acc =>
      if ch = '^' then [] :: acc
      else
        match acc with
        | g :: gs => (ch :: g) :: gs
        | [] => [[ch]])
    [[]]

/-- One row of the `schema_def` SQLite table
(table_name, column_name, type_id, size, position). -/
structure Row where
  table_name : Str
  column_name : Str
  type_id : Str
  size : Str
  position : Str
deriving DecidableEq, Repr

/-- The contents of the `schema_def` table. -/
abbrev DB := List Row

/-- The status strings used by `SchemaComparer._record_difference`:
`"missing_in_db"` is the code-level name of the spec's MissingInStore,
`"different"` of the spec's Different. -/
inductive DiffStatus where
  | missing_in_db
  | different
deriving DecidableEq, Repr

/-- The `file_info` / `db_info` sub-dictionaries `{type, size, position}`. -/
structure ColumnAttributes where
  type : Str
  size : Str
  position : Str
deriving DecidableEq, Repr

/-- One entry of `SchemaComparer.differences`. -/
structure DiffRecord where
  status : DiffStatus
  table : Str
  column : Str
  file_info : ColumnAttributes
  db_info : Option ColumnAttributes
deriving DecidableEq, Repr

/-- The `diff_info` argument of `SchemaComparer._record_difference`. -/
structure DiffInfo where
  status : DiffStatus
  file_info : ColumnAttributes
  db_info : Option ColumnAttributes
deriving DecidableEq, Repr

/-- `SchemaComparer.parse_schema_line`: strip the line, split on the caret;
exactly six parts yield the first five as a record, anything else yields
`none`. -/
def parse_schema_line (line : Str) : Option (Str × Str × Str × Str × Str) :=
  match splitCaret (strip line) with
  | [table_name, column_name, type_id, size, position, _] =>
      some (table_name, column_name, type_id, size, position)
  | _ => none

/-- The point lookup issued by `SchemaComparer.get_db_column`:
`SELECT type_id, size, position FROM schema_def WHERE table_name = ? AND
column_name = ?` followed by `fetchone()` (first matching row, if any). -/
def dbLookup (db : DB) (table_name column_name : Str) :
    Option (Str × Str × Str) :=
  (db.find? (fun r => r.table_name == table_name &&
      r.column_name == column_name)).map
    (fun r => (r.type_id, r.size, r.position))

/-- `SchemaComparer.get_db_column`: opens a connection, runs the SELECT and
closes the connection.  A SELECT does not modify the database, so the
database state is returned unchanged alongside the query result. -/
def get_db_column (db : DB) (table_name column_name : Str) :
    Option (Str × Str × Str) × DB :=
  (dbLookup db table_name column_name, db)

/-- `SchemaComparer._record_difference`: append one record built from the
table, column and `diff_info` to the `differences` list. -/
def record_difference (diffs : List DiffRecord) (table_name column_name : Str)
    (d : DiffInfo) : List DiffRecord :=
  diffs ++ [{ status := d.status, table := table_name, column := column_name,
              file_info := d.file_info, db_info := d.db_info }]

/-- The body of the `for line in f` loop of `SchemaComparer.compare_schemas`:
skip blank lines, skip unparsable lines, look the key up in the database and
classify. The database state is threaded through the lookup. -/
def compareStep (db : DB) (diffs : List DiffRecord) (line : Str) :
    List DiffRecord × DB :=
  if strip line = [] then (diffs, db)
  else
    match parse_schema_line line with
    | none => (diffs, db)
    | some (table_name, column_name, type_id, size, position) =>
      match get_db_column db table_name column_name with
      | (none, db1) =>
          (record_difference diffs table_name column_name
            { status := .missing_in_db,
              file_info := { type := type_id, size := size, position := position },
              db_info := none }, db1)
      | (some (db_type, db_size, db_position), db1) =>
          if db_type ≠ type_id ∨ db_size ≠ size ∨ db_position ≠ position then
            (record_difference diffs table_name column_name
              { status := .different,
                file_info := { type := type_id, size := size, position := position },
                db_info := some { type := db_type, size := db_size,
                                  position := db_position } }, db1)
          else (diffs, db1)

/-- The full `for line in f` loop, threading the differences list and the
database state. -/
def compareLoop (lines : List Str) (db : DB) (diffs : List DiffRecord) :
    List DiffRecord × DB :=
  match lines with
  | [] => (diffs, db)
  | l :: ls =>
      let p := compareStep db diffs l
      compareLoop ls p.2 p.1

/-- `SchemaComparer.compare_schemas` started on a fresh comparer
(`self.differences = []`, as set by `__init__`).  Returns the final
`differences` list together with the database state after the run. -/
def compare_schemas (lines : List Str) (db : DB) : List DiffRecord × DB :=
  compareLoop lines db []

/-- The contribution of a single file line to the differences list. -/
def processLine (db : DB) (line : Str) : List DiffRecord :=
  (compareStep db [] line).1

/-- The whole report produced from a list of lines (pure view). -/
def runDiffs (db : DB) : List Str → List DiffRecord
  | [] => []
  | l :: ls => processLine db l ++ runDiffs db ls

/-! ## SchemaParser (schema_parser.py) -/

/-- One entry of a `SchemaParser.tables` value list:
(column, type_id, size, position). -/
abbrev Col := Str × Str × Str × Str

/-- `SchemaParser.tables`: a Python dict from table name to its column list,
modelled as an insertion-ordered association list. -/
abbrev Tables := List (Str × List Col)

/-- `self.tables[table].append(col)` preceded by
`if table not in self.tables: self.tables[table] = []`. -/
def tablesAppend (tbls : Tables) (table : Str) (c : Col) : Tables :=
  match tbls with
  | [] => [(table, [c])]
  | (t, cs) :: rest =>
      if t == table then (t, cs ++ [c]) :: rest
      else (t, cs) :: tablesAppend rest table c

/-- The body of the `for line in f` loop of `SchemaParser.parse`. -/
def parseStep (tbls : Tables) (rawLine : Str) : Tables :=
  let line := strip rawLine
  if line = [] then tbls
  else
    match splitCaret (strip line) with
    | [table, column, type_id, size, position, _] =>
        tablesAppend tbls table (column, type_id, size, position)
    | _ => tbls

/-- `SchemaParser.parse`: fold the loop body over the file lines, starting
from the empty dict set up by `__init__`. -/
def parse (lines : List Str) : Tables :=
  lines.foldl parseStep []

/-- The `all_columns` list comprehension of `SchemaParser.export_to_sqlite`:
flatten the dict into (table_name, column_name, type_id, size, position)
rows, in dict order. -/
def all_columns (tbls : Tables) : List Row :=
  match tbls with
  | [] => []
  | (t, cs) :: rest =>
      cs.map (fun c => { table_name := t, column_name := c.1,
                         type_id := c.2.1, size := c.2.2.1,
                         position := c.2.2.2 }) ++ all_columns rest

/-- A SQLite connection to the schema database: the committed contents of
`schema_def`, plus the working view of an open (not yet committed implicit)
transaction when one is pending. -/
structure Conn where
  committed : DB
  pending : Option DB
deriving DecidableEq, Repr

/-- The rows a statement on this connection sees. -/
def txView (c : Conn) : DB :=
  c.pending.getD c.committed

/-- `cursor.execute('DELETE FROM schema_def')`: opens the implicit
transaction if needed and empties the working view; nothing is committed. -/
def exec_delete_all (c : Conn) : Conn :=
  { c with pending := some [] }

/-- Whether two rows collide on the `UNIQUE(table_name, column_name)`
constraint of `schema_def`. -/
def sameKey (a b : Row) : Bool :=
  a.table_name == b.table_name && a.column_name == b.column_name

/-- One `INSERT INTO schema_def ... VALUES (?,?,?,?,?)`: fails (raises
`IntegrityError`) when the UNIQUE(table_name, column_name) constraint is
violated against the rows visible in the transaction. -/
def insert_row (c : Conn) (r : Row) : Except Unit Conn :=
  let w := txView c
  if w.any (fun x => sameKey x r) then .error ()
  else .ok { c with pending := some (w ++ [r]) }

/-- `cursor.executemany(INSERT ..., all_columns)`: insert row by row,
stopping at the first constraint violation.  Returns the connection as it
stands afterwards and whether every insert succeeded. -/
def executemany_insert (c : Conn) : List Row → Conn × Bool
  | [] => (c, true)
  | r :: rs =>
      match insert_row c r with
      | .ok c1 => executemany_insert c1 rs
      | .error _ => (c, false)

/-- `conn.commit()`: make the working view durable. -/
def conn_commit (c : Conn) : Conn :=
  { committed := txView c, pending := none }

/-- `conn.rollback()`: discard the open transaction, keeping the committed
state. -/
def conn_rollback (c : Conn) : Conn :=
  { committed := c.committed, pending := none }

/-- `conn.close()`: an uncommitted transaction is rolled back. -/
def conn_close (c : Conn) : Conn :=
  { committed := c.committed, pending := none }

/-- `SchemaParser.export_to_sqlite`: clear `schema_def`, then insert every
row of `all_columns` and commit; on any insert failure, roll back
(`except ... conn.rollback()`) and close. -/
def export_to_sqlite (tbls : Tables) (c : Conn) : Conn :=
  let c1 := exec_delete_all c
  match executemany_insert c1 (all_columns tbls) with
  | (c2, true) => conn_close (conn_commit c2)
  | (c2, false) => conn_close (conn_rollback c2)

/-- The ORDER BY key of `SchemaParser.load_from_sqlite`:
`ORDER BY table_name, position`, both TEXT columns compared by SQLite's
byte-wise BINARY collation, i.e. lexicographically. -/
def rowLe (a b : Row) : Prop :=
  a.table_name < b.table_name ∨
    (a.table_name = b.table_name ∧ a.position ≤ b.position)

instance : DecidableRel rowLe := fun a b => by
  unfold rowLe; infer_instance

instance : IsTotal Row rowLe where
  total a b := by
    unfold rowLe
    rcases lt_trichotomy a.table_name b.table_name with h | h | h
    · exact Or.inl (Or.inl h)
    · rcases le_total a.position b.position with hp | hp
      · exact Or.inl (Or.inr ⟨h, hp⟩)
      · exact Or.inr (Or.inr ⟨h.symm, hp⟩)
    · exact Or.inr (Or.inl h)

instance : IsTrans Row rowLe where
  trans a b c hab hbc := by
    unfold rowLe at hab hbc ⊢
    rcases hab with h1 | ⟨h1, h1p⟩
    · rcases hbc with h2 | ⟨h2, _⟩
      · exact Or.inl (h1.trans h2)
      · exact Or.inl (h2 ▸ h1)
    · rcases hbc with h2 | ⟨h2, h2p⟩
      · exact Or.inl (h1 ▸ h2)
      · exact Or.inr ⟨h1.trans h2, h1p.trans h2p⟩

/-- `SchemaParser.load_from_sqlite`:
`SELECT table_name, column_name, type_id, size, position FROM schema_def
ORDER BY table_name, position`, on a fresh connection (which sees the
committed state).  The rows are then regrouped into `self.tables` in
arrival order, so the flattened sequence is exactly the SELECT output;
the ORDER BY is modelled by a sort on the (table_name, position) key. -/
def load_from_sqlite (c : Conn) : List Row :=
  List.insertionSort rowLe c.committed

/-! ## search_diff.py -/

/-- The list comprehension of `search_different_size`: keep the records
whose `file_info.size` differs from `target_size`.  (Every exported
difference record carries a `file_info` dict with a `size` key, so the
`.get` chain is plain field access here.) -/
def search_different_size : List DiffRecord → Str → List DiffRecord
  | [], _ => []
  | r :: rs, target_size =>
      if r.file_info.size ≠ target_size then
        r :: search_different_size rs target_size
      else search_different_size rs target_size

/-- How many rows of a list carry the key (t, c) — used to express that a
parsed input declares one (table, column) key more than once. -/
def countKey (rows : List Row) (t c : Str) : Nat :=
  (rows.filter (fun r => r.table_name == t && r.column_name == c)).length

/-- Whether some key occurs twice in a row list (the situation the
`UNIQUE(table_name, column_name)` constraint rejects). -/
def hasDupKey : List Row → Bool
  | [] => false
  | r :: rs => rs.any (fun x => sameKey r x) || hasDupKey rs

/-! ## Structural lemmas about the comparison loop -/

/-- A line that parses successfully is not blank. -/
theorem parse_some_strip_ne {line : Str} {v : Str × Str × Str × Str × Str}
    (h : parse_schema_line line = some v) : strip line ≠ [] := by
  intro hs
  unfold parse_schema_line at h
  rw [hs] at h
  exact Option.noConfusion h

/-- One loop iteration appends this line's contribution to the accumulated
differences and leaves the database unchanged. -/
theorem compareStep_eq (db : DB) (diffs : List DiffRecord) (line : Str) :
    compareStep db diffs line = (diffs ++ processLine db line, db) := by
  unfold processLine compareStep
  by_cases h : strip line = []
  · simp [h]
  · simp only [if_neg h]
    cases hp : parse_schema_line line with
    | none => simp
    | some v =>
      obtain ⟨t, c, ty, sz, pos⟩ := v
      simp only [get_db_column]
      cases hl : dbLookup db t c with
      | none => simp [record_difference]
      | some w =>
        obtain ⟨dt, ds, dp⟩ := w
        by_cases hd : dt ≠ ty ∨ ds ≠ sz ∨ dp ≠ pos
        · simp [hd, record_difference]
        · simp [hd, record_difference]

/-- The loop, run from any accumulator, appends the report of the remaining
lines and leaves the database unchanged. -/
theorem compareLoop_eq (lines : List Str) (db : DB) (diffs : List DiffRecord) :
    compareLoop lines db diffs = (diffs ++ runDiffs db lines, db) := by
  induction lines generalizing diffs with
  | nil => simp [compareLoop, runDiffs]
  | cons l ls ih =>
      rw [compareLoop, compareStep_eq]
      simp only [ih, runDiffs, List.append_assoc]

/-- `compare_schemas` is the concatenation of the per-line contributions and
does not change the database. -/
theorem compare_schemas_eq (lines : List Str) (db : DB) :
    compare_schemas lines db = (runDiffs db lines, db) := by
  rw [compare_schemas, compareLoop_eq]
  rfl

/-- The report of a concatenated file is the concatenation of the reports. -/
theorem runDiffs_append (db : DB) (l1 l2 : List Str) :
    runDiffs db (l1 ++ l2) = runDiffs db l1 ++ runDiffs db l2 := by
  induction l1 with
  | nil => simp [runDiffs]
  | cons l ls ih => simp [runDiffs, ih]

/-- A single line contributes at most one difference record. -/
theorem processLine_length_le_one (db : DB) (line : Str) :
    (processLine db line).length ≤ 1 := by
  unfold processLine compareStep
  by_cases h : strip line = []
  · simp [h]
  · simp only [if_neg h]
    cases hp : parse_schema_line line with
    | none => simp
    | some v =>
      obtain ⟨t, c, ty, sz, pos⟩ := v
      simp only [get_db_column]
      cases hl : dbLookup db t c with
      | none => simp [record_difference]
      | some w =>
        obtain ⟨dt, ds, dp⟩ := w
        by_cases hd : dt ≠ ty ∨ ds ≠ sz ∨ dp ≠ pos
        · simp [hd, record_difference]
        · simp [hd, record_difference]

/-! ## Claim theorems: the Reconciler -/

/-- C1: for a file record whose (table, column) key is present in the store,
the Reconciler compares type_id, size and position component-wise by exact
string equality and emits exactly one DifferenceRecord with
status=Different (carrying both the file attributes and the store
attributes) when at least one component differs, and emits nothing when all
three are equal. -/
theorem present_key_componentwise
    (db : DB) (line : Str) (t c ty sz pos dt ds dp : Str)
    (hp : parse_schema_line line = some (t, c, ty, sz, pos))
    (hl : dbLookup db t c = some (dt, ds, dp)) :
    processLine db line =
      if dt ≠ ty ∨ ds ≠ sz ∨ dp ≠ pos then
        [{ status := .different, table := t, column := c,
           file_info := { type := ty, size := sz, position := pos },
           db_info := some { type := dt, size := ds, position := dp } }]
      else [] := by
  unfold processLine compareStep
  rw [if_neg (fun hs => parse_some_strip_ne hp hs), hp]
  simp only [get_db_column, hl]
  by_cases hd : dt ≠ ty ∨ ds ≠ sz ∨ dp ≠ pos
  · simp [hd, record_difference]
  · simp [hd, record_difference]

/-- Witness for C1 at a concrete input: file size "10" versus store size
"010" — compared as strings, they differ, producing one Different record. -/
theorem present_key_componentwise_witness :
    processLine
      [{ table_name := str "T", column_name := str "C", type_id := str "0",
         size := str "010", position := str "1" }]
      (str "T^C^0^10^1^") =
      [{ status := .different, table := str "T", column := str "C",
         file_info := { type := str "0", size := str "10", position := str "1" },
         db_info := some { type := str "0", size := str "010",
                           position := str "1" } }] := by
  rw [present_key_componentwise _ _ (str "T") (str "C") (str "0") (str "10")
    (str "1") (str "0") (str "010") (str "1") (by decide) (by decide)]
  decide

/-- C2: for a file record whose (table, column) key is absent from the
store, the run emits exactly one record with status missing_in_db
(the spec's MissingInStore), carrying exactly the parsed type/size/position
values and no store info; the loop continues normally (the contribution is
a plain one-element list, never an error). -/
theorem absent_key_missing_record
    (db : DB) (line : Str) (t c ty sz pos : Str)
    (hp : parse_schema_line line = some (t, c, ty, sz, pos))
    (hl : dbLookup db t c = none) :
    processLine db line =
      [{ status := .missing_in_db, table := t, column := c,
         file_info := { type := ty, size := sz, position := pos },
         db_info := none }] := by
  unfold processLine compareStep
  rw [if_neg (fun hs => parse_some_strip_ne hp hs), hp]
  simp [get_db_column, hl, record_difference]

/-- Witness for C2: one record against an empty store. -/
theorem absent_key_missing_record_witness :
    processLine []
      (str "CUSTOMER^NAME^1^30^2^") =
      [{ status := .missing_in_db, table := str "CUSTOMER",
         column := str "NAME",
         file_info := { type := str "1", size := str "30",
                        position := str "2" },
         db_info := none }] := by
  rw [absent_key_missing_record [] _ (str "CUSTOMER") (str "NAME") (str "1")
    (str "30") (str "2") (by decide) (by decide)]

/-- C3: the line parser trims the line edges and splits on the caret; a
six-field split yields a record of the first five fields unchanged (the
sixth is discarded); any other field count — blank lines included — yields
no record (never an error). -/
theorem line_parser_contract (line : Str) :
    (∀ t c ty sz pos term : Str,
        splitCaret (strip line) = [t, c, ty, sz, pos, term] →
        parse_schema_line line = some (t, c, ty, sz, pos))
    ∧ ((splitCaret (strip line)).length ≠ 6 → parse_schema_line line = none)
    ∧ (strip line = [] → parse_schema_line line = none) := by
  refine ⟨?_, ?_, ?_⟩
  · intro t c ty sz pos term h
    unfold parse_schema_line
    rw [h]
  · intro h
    unfold parse_schema_line
    generalize hp : splitCaret (strip line) = parts
    rw [hp] at h
    match parts, h with
    | [], _ => rfl
    | [_], _ => rfl
    | [_, _], _ => rfl
    | [_, _, _], _ => rfl
    | [_, _, _, _], _ => rfl
    | [_, _, _, _, _], _ => rfl
    | [_, _, _, _, _, _], h => exact absurd rfl h
    | _ :: _ :: _ :: _ :: _ :: _ :: _ :: _, _ => rfl
  · intro h
    unfold parse_schema_line
    rw [h]
    rfl

/-- Witness for C3: edge whitespace is trimmed, the six fields are split on
the caret, the first five are returned and the trailing terminator is
dropped. -/
theorem line_parser_contract_witness :
    parse_schema_line (str "  CUSTOMER^ID^0^4^1^  ") =
      some (str "CUSTOMER", str "ID", str "0", str "4", str "1")
    ∧ parse_schema_line (str "not a schema line") = none
    ∧ parse_schema_line (str "   ") = none := by
  refine ⟨?_, ?_, ?_⟩
  · exact (line_parser_contract (str "  CUSTOMER^ID^0^4^1^  ")).1
      (str "CUSTOMER") (str "ID") (str "0") (str "4") (str "1") []
      (by decide)
  · exact (line_parser_contract (str "not a schema line")).2.1 (by decide)
  · exact (line_parser_contract (str "   ")).2.2 (by decide)

/-- C5: reconciliation is deterministic and idempotent: a second run of
`compare_schemas` against the file and the store state left behind by the
first run returns the identical ordered difference sequence (and the
identical store state). -/
theorem reconciliation_idempotent (lines : List Str) (db : DB) :
    compare_schemas lines (compare_schemas lines db).2 =
      compare_schemas lines db := by
  simp [compare_schemas_eq]

/-- C6: the Reconciler deduplicates nothing: the report of a concatenated
file is the concatenation of the reports, and a file repeating one line n
times yields the n independent per-occurrence classifications in file
order — hence at most n records for that key. -/
theorem no_deduplication :
    (∀ (l1 l2 : List Str) (db : DB),
        (compare_schemas (l1 ++ l2) db).1 =
          (compare_schemas l1 db).1 ++ (compare_schemas l2 db).1)
    ∧ (∀ (n : Nat) (line : Str) (db : DB),
        (compare_schemas (List.replicate n line) db).1 =
          (List.replicate n (processLine db line)).flatten
        ∧ ((compare_schemas (List.replicate n line) db).1).length ≤ n) := by
  constructor
  · intro l1 l2 db
    simp [compare_schemas_eq, runDiffs_append]
  · intro n line db
    have hrep : ∀ m : Nat, runDiffs db (List.replicate m line) =
        (List.replicate m (processLine db line)).flatten := by
      intro m
      induction m with
      | zero => simp [runDiffs]
      | succ k ih => simp [List.replicate_succ, runDiffs, ih]
    constructor
    · rw [compare_schemas_eq]
      exact hrep n
    · rw [compare_schemas_eq]
      calc (runDiffs db (List.replicate n line)).length
          = ((List.replicate n (processLine db line)).flatten).length := by
            rw [hrep n]
        _ ≤ n := by
            induction n with
            | zero => simp
            | succ k ih =>
                simp only [List.replicate_succ, List.flatten_cons,
                  List.length_append]
                have := processLine_length_le_one db line
                omega

/-- C9: a reconciliation run is read-only with respect to the store: the
store state after `compare_schemas` is the one before it, so any lookup
after the run returns what it returned before. -/
theorem reconciliation_read_only (lines : List Str) (db : DB) :
    (compare_schemas lines db).2 = db
    ∧ ∀ t c : Str,
        (get_db_column (compare_schemas lines db).2 t c).1 =
          (get_db_column db t c).1 := by
  have h : (compare_schemas lines db).2 = db := by
    rw [compare_schemas_eq]
  exact ⟨h, fun t c => by rw [h]⟩

/-! ## Claim theorems: the filter utility and the store scan -/

/-- C7: `search_different_size` is a pure filter over the exported report:
it returns exactly the subsequence (original order preserved) of records
whose `file_info.size` differs from the target; on the report with sizes
"10", "20", "10" and target "10" it returns exactly the "20" record. -/
theorem search_filters_by_size :
    (∀ (records : List DiffRecord) (target_size : Str),
        search_different_size records target_size =
          records.filter (fun r => decide (r.file_info.size ≠ target_size)))
    ∧ (∀ (records : List DiffRecord) (target_size : Str),
        (search_different_size records target_size).Sublist records)
    ∧ search_different_size
        [{ status := .different, table := str "A", column := str "X",
           file_info := { type := str "0", size := str "10",
                          position := str "1" }, db_info := none },
         { status := .different, table := str "A", column := str "Y",
           file_info := { type := str "0", size := str "20",
                          position := str "2" }, db_info := none },
         { status := .different, table := str "B", column := str "Z",
           file_info := { type := str "0", size := str "10",
                          position := str "3" }, db_info := none }]
        (str "10") =
        [{ status := .different, table := str "A", column := str "Y",
           file_info := { type := str "0", size := str "20",
                          position := str "2" }, db_info := none }] := by
  have hf : ∀ (records : List DiffRecord) (target_size : Str),
      search_different_size records target_size =
        records.filter (fun r => decide (r.file_info.size ≠ target_size)) := by
    intro records target_size
    induction records with
    | nil => rfl
    | cons r rs ih =>
        by_cases h : r.file_info.size ≠ target_size
        · simp [search_different_size, h, ih]
        · simp [search_different_size, h, ih]
  refine ⟨hf, ?_, by decide⟩
  intro records target_size
  rw [hf]
  exact List.filter_sublist records

/-- C8: the full scan (`load_from_sqlite`, the spec's `listAll`) returns
the complete committed contents of the store — a permutation, nothing
added or dropped — as a sequence sorted by the (table_name, position)
key of the `ORDER BY`. -/
theorem listAll_complete_and_sorted (c : Conn) :
    (load_from_sqlite c).Perm c.committed
    ∧ List.Sorted rowLe (load_from_sqlite c) :=
  ⟨List.perm_insertionSort rowLe c.committed,
   List.sorted_insertionSort rowLe c.committed⟩

/-! ## Transaction lemmas for the bulk replace -/

/-- Inserting rows only touches the pending transaction view, never the
committed contents. -/
theorem executemany_keeps_committed (rows : List Row) (c : Conn) :
    ((executemany_insert c rows).1).committed = c.committed := by
  induction rows generalizing c with
  | nil => rfl
  | cons r rs ih =>
      unfold executemany_insert insert_row
      by_cases h : (txView c).any (fun x => sameKey x r) = true
      · simp [h]
      · simp only [Bool.not_eq_true] at h
        simp only [h, ite_false]
        exact ih _

/-- A successful single insert extends the transaction view by the row. -/
theorem insert_ok_view {c c1 : Conn} {r : Row}
    (h : insert_row c r = .ok c1) : txView c1 = txView c ++ [r] := by
  unfold insert_row at h
  by_cases hc : (txView c).any (fun x => sameKey x r) = true
  · rw [if_pos hc] at h
    exact Except.noConfusion h
  · rw [if_neg hc] at h
    cases h
    rfl

/-- Once a row whose key is already visible in the transaction is waiting
in the remaining insert list, the executemany call fails. -/
theorem executemany_fails_of_view (rows : List Row) (c : Conn) (r : Row)
    (hr : r ∈ rows) (hv : (txView c).any (fun x => sameKey x r) = true) :
    (executemany_insert c rows).2 = false := by
  induction rows generalizing c with
  | nil => cases hr
  | cons x xs ih =>
      unfold executemany_insert
      cases hins : insert_row c x with
      | error e => rfl
      | ok c1 =>
          rcases List.mem_cons.mp hr with hrx | hrxs
          · subst hrx
            unfold insert_row at hins
            rw [if_pos hv] at hins
            cases hins
          · have hview : (txView c1).any (fun y => sameKey y r) = true := by
              rw [insert_ok_view hins, List.any_append, hv, Bool.true_or]
            exact ih c1 hrxs hview

/-- A duplicate key inside the insert list makes the executemany call
fail: by the time the second occurrence is inserted, the first is visible
in the transaction and violates UNIQUE(table_name, column_name). -/
theorem executemany_fails_of_dup (rows : List Row) (c : Conn)
    (hd : hasDupKey rows = true) :
    (executemany_insert c rows).2 = false := by
  induction rows generalizing c with
  | nil => cases hd
  | cons r rs ih =>
      unfold executemany_insert
      cases hins : insert_row c r with
      | error e => rfl
      | ok c1 =>
          rw [hasDupKey, Bool.or_eq_true] at hd
          rcases hd with hany | hrec
          · rcases List.any_eq_true.mp hany with ⟨x, hx, hkey⟩
            have hview : (txView c1).any (fun y => sameKey y x) = true := by
              rw [insert_ok_view hins, List.any_append]
              have : [r].any (fun y => sameKey y x) = true := by
                simp [hkey]
              rw [this, Bool.or_true]
            exact executemany_fails_of_view rs c1 x hx hview
          · exact ih c1 hrec

/-- A key counted at least twice yields a duplicate in the sense of
`hasDupKey`. -/
theorem hasDupKey_of_countKey (rows : List Row) (t c : Str)
    (h : 2 ≤ countKey rows t c) : hasDupKey rows = true := by
  induction rows with
  | nil => simp [countKey] at h
  | cons r rs ih =>
      unfold countKey at h
      rw [List.filter_cons] at h
      by_cases hr : (r.table_name == t && r.column_name == c) = true
      · simp only [hr, ite_true, List.length_cons] at h
        have h1 : 1 ≤ countKey rs t c := by
          unfold countKey; omega
        have hx : ∃ x ∈ rs, (x.table_name == t && x.column_name == c) = true := by
          rcases List.length_pos_iff_exists_mem.mp
            (Nat.lt_of_lt_of_le Nat.zero_lt_one h1) with ⟨x, hx⟩
          exact ⟨x, (List.mem_filter.mp hx).1, (List.mem_filter.mp hx).2⟩
        rcases hx with ⟨x, hxmem, hxkey⟩
        rw [hasDupKey, Bool.or_eq_true]
        left
        rw [List.any_eq_true]
        refine ⟨x, hxmem, ?_⟩
        simp only [Bool.and_eq_true, beq_iff_eq] at hr hxkey
        unfold sameKey
        simp only [Bool.and_eq_true, beq_iff_eq]
        exact ⟨hr.1.trans hxkey.1.symm, hr.2.trans hxkey.2.symm⟩
      · simp only [hr, ite_false] at h
        rw [hasDupKey, Bool.or_eq_true]
        right
        exact ih h

/-- If the insert phase of the bulk replace fails, the committed store is
exactly the pre-replace store. -/
theorem export_fail_keeps_committed (tbls : Tables) (c : Conn)
    (hfail : (executemany_insert (exec_delete_all c)
        (all_columns tbls)).2 = false) :
    (export_to_sqlite tbls c).committed = c.committed := by
  rcases hE : executemany_insert (exec_delete_all c) (all_columns tbls)
    with ⟨c2, b⟩
  have hcommitted : c2.committed = c.committed := by
    have hk := executemany_keeps_committed (all_columns tbls)
      (exec_delete_all c)
    rw [hE] at hk
    exact hk
  have hb : b = false := by rw [hE] at hfail; exact hfail
  subst hb
  show (match executemany_insert (exec_delete_all c) (all_columns tbls) with
        | (c2, true) => conn_close (conn_commit c2)
        | (c2, false) => conn_close (conn_rollback c2)).committed =
      c.committed
  rw [hE]
  exact hcommitted

/-- C4: the bulk replace is all-or-nothing: if the insert phase fails
partway through, the rollback discards the whole implicit transaction —
the uncommitted DELETE included — so the committed store is exactly the
pre-replace store and a subsequent full scan returns the pre-replace
contents, never a partial set. -/
theorem bulk_replace_atomic (tbls : Tables) (c : Conn)
    (hfail : (executemany_insert (exec_delete_all c)
        (all_columns tbls)).2 = false) :
    (export_to_sqlite tbls c).committed = c.committed
    ∧ load_from_sqlite (export_to_sqlite tbls c) = load_from_sqlite c := by
  have h := export_fail_keeps_committed tbls c hfail
  refine ⟨h, ?_⟩
  unfold load_from_sqlite
  rw [h]

/-- Witness for C4: loading a parsed input whose two columns collide on the
key (T, C) fails mid-insert, and the store still scans to its pre-replace
contents. -/
theorem bulk_replace_atomic_witness :
    (export_to_sqlite
        [(str "T", [(str "C", str "0", str "4", str "1"),
                    (str "C", str "1", str "8", str "2")])]
        { committed := [{ table_name := str "OLD", column_name := str "K",
                          type_id := str "9", size := str "5",
                          position := str "1" }],
          pending := none }).committed =
      [{ table_name := str "OLD", column_name := str "K",
         type_id := str "9", size := str "5", position := str "1" }]
    ∧ load_from_sqlite
        (export_to_sqlite
          [(str "T", [(str "C", str "0", str "4", str "1"),
                      (str "C", str "1", str "8", str "2")])]
          { committed := [{ table_name := str "OLD", column_name := str "K",
                            type_id := str "9", size := str "5",
                            position := str "1" }],
            pending := none }) =
      load_from_sqlite
        { committed := [{ table_name := str "OLD", column_name := str "K",
                          type_id := str "9", size := str "5",
                          position := str "1" }],
          pending := none } :=
  bulk_replace_atomic
    [(str "T", [(str "C", str "0", str "4", str "1"),
                (str "C", str "1", str "8", str "2")])]
    { committed := [{ table_name := str "OLD", column_name := str "K",
                      type_id := str "9", size := str "5",
                      position := str "1" }],
      pending := none }
    (by decide)

/-- C10: a parsed input that declares the same (table, column) key more
than once cannot be bulk-loaded: the UNIQUE(table_name, column_name)
constraint makes the insert phase fail, and the store keeps its
pre-replace committed contents — the duplicate-keyed file is never fully
loaded. -/
theorem duplicate_key_blocks_bulk_replace (tbls : Tables) (c : Conn)
    (t col : Str) (hdup : 2 ≤ countKey (all_columns tbls) t col) :
    (executemany_insert (exec_delete_all c) (all_columns tbls)).2 = false
    ∧ (export_to_sqlite tbls c).committed = c.committed := by
  have hfail := executemany_fails_of_dup (all_columns tbls)
    (exec_delete_all c) (hasDupKey_of_countKey (all_columns tbls) t col hdup)
  exact ⟨hfail, export_fail_keeps_committed tbls c hfail⟩

/-- Witness for C10: the key (ORDERS, ID) is declared twice; the insert
phase reports failure and the committed store is untouched. -/
theorem duplicate_key_blocks_bulk_replace_witness :
    (executemany_insert
        (exec_delete_all { committed := [], pending := none })
        (all_columns
          [(str "ORDERS", [(str "ID", str "0", str "4", str "1"),
                           (str "ID", str "0", str "4", str "2")])])).2 =
      false
    ∧ (export_to_sqlite
        [(str "ORDERS", [(str "ID", str "0", str "4", str "1"),
                         (str "ID", str "0", str "4", str "2")])]
        { committed := [], pending := none }).committed = [] :=
  duplicate_key_blocks_bulk_replace
    [(str "ORDERS", [(str "ID", str "0", str "4", str "1"),
                     (str "ID", str "0", str "4", str "2")])]
    { committed := [], pending := none }
    (str "ORDERS") (str "ID") (by decide)
